import Mathlib

/-!
Shallow embedding of the core of `pdblister` (src/main.rs and src/sym.rs):
the PE/CodeView debug-identity extractor `get_pdb`, and the symbol-server
spec parser / concurrent fetcher `SymSrv::from_str` / `download_manifest`.

A file is modelled as a list of bytes (`List Nat`, reads truncate mod 256,
matching the fact that a `File` yields `u8`s); the `File` cursor is an
explicit position.  `Box<dyn Error>` results become `Except PdbErr`;
abnormal termination (Rust `panic!` / `unreachable!` / arithmetic overflow
panics) is modelled by the distinguished constructor `PdbErr.panicked`,
since aborting is observably different from returning an error.
-/

namespace Pdblister

set_option maxRecDepth 40000

/-- Error type standing in for `Box<dyn Error>` plus abnormal termination.
`io` models `std::io::Error` values (e.g. a short `read_exact`), `err`
models the `Err("...".into())` string errors of the source with the exact
message text, and `panicked` models a Rust panic/abort. -/
inductive PdbErr where
  | io (msg : String)
  | err (msg : String)
  | panicked (msg : String)
deriving DecidableEq

instance {ε α : Type} [DecidableEq ε] [DecidableEq α] : DecidableEq (Except ε α) :=
fun x y =>
  match x, y with
  | .ok a, .ok b =>
    if h : a = b then .isTrue (by rw [h]) else .isFalse (by simp [h])
  | .error a, .error b =>
    if h : a = b then .isTrue (by rw [h]) else .isFalse (by simp [h])
  | .ok _, .error _ => .isFalse (by simp)
  | .error _, .ok _ => .isFalse (by simp)

/-- A seekable byte stream: the file contents plus the cursor position,
modelling an open `std::fs::File`. -/
structure FD where
  data : List Nat
  pos : Nat
deriving DecidableEq

/-- `Read::read_exact` into a buffer of `n` bytes: succeeds exactly when
`n` bytes are available from the current position, advancing the cursor;
otherwise fails with an `UnexpectedEof` io error.  Bytes are taken mod 256
because file contents are `u8`s. -/
def readBytes (fd : FD) (n : Nat) : Except PdbErr (List Nat × FD) :=
  if fd.pos + n ≤ fd.data.length then
    .ok (((fd.data.drop fd.pos).take n).map (· % 256), ⟨fd.data, fd.pos + n⟩)
  else
    .error (.io "failed to fill whole buffer")

/-- `Seek::seek(SeekFrom::Start(p))`: total, returns the new position, so
the source's `seek(..)? != target` guards can never fire for `Start`. -/
def seekTo (fd : FD) (p : Nat) : FD := ⟨fd.data, p⟩

/-- Little-endian interpretation of a byte list (first byte least
significant), the layout `#[repr(C, packed)]` gives every integer field. -/
def leNat : List Nat → Nat
  | [] => 0
  | b :: bs => b + 256 * leNat bs

/-- `bytes[off .. off+len)`: the raw bytes of one packed struct field. -/
def slice (bs : List Nat) (off len : Nat) : List Nat := (bs.drop off).take len

/-- `read_struct::<T>`: read `sizeof T` bytes at the cursor and reinterpret
them as `T` via the field decoder `f` (fields are decoded at their packed
offsets; fields the program never reads are not represented). -/
def readStruct {α : Type} (k : Nat) (f : List Nat → α) (fd : FD) :
    Except PdbErr (α × FD) :=
  match readBytes fd k with
  | .error e => .error e
  | .ok (bs, fd') => .ok (f bs, fd')

/-- `MZHeader` (64 bytes packed): only `signature` (offset 0, 2 bytes) and
`new_header` (offset 60, u32) are read by the program. -/
structure MZHeader where
  signature : List Nat
  new_header : Nat
deriving DecidableEq

def readMZ : FD → Except PdbErr (MZHeader × FD) :=
  readStruct 64 (fun bs => ⟨slice bs 0 2, leNat (slice bs 60 4)⟩)

/-- `PEHeader` (24 bytes packed): `signature` at 0 (4 bytes), `machine` at
4 (u16), `num_sections` at 6 (u16), `optional_header_size` at 20 (u16). -/
structure PEHeader where
  signature : List Nat
  machine : Nat
  num_sections : Nat
  optional_header_size : Nat
deriving DecidableEq

def readPE : FD → Except PdbErr (PEHeader × FD) :=
  readStruct 24 (fun bs =>
    ⟨slice bs 0 4, leNat (slice bs 4 2), leNat (slice bs 6 2), leNat (slice bs 20 2)⟩)

/-- `WindowsPEHeader32` (96 bytes packed): the program keeps only
`size_of_image` (offset 56, u32) and `num_tables` (offset 92, u32). -/
def readOpt32 : FD → Except PdbErr ((Nat × Nat) × FD) :=
  readStruct 96 (fun bs => (leNat (slice bs 56 4), leNat (slice bs 92 4)))

/-- `WindowsPEHeader64` (112 bytes packed): `size_of_image` at 56,
`num_tables` at 108. -/
def readOpt64 : FD → Except PdbErr ((Nat × Nat) × FD) :=
  readStruct 112 (fun bs => (leNat (slice bs 56 4), leNat (slice bs 108 4)))

/-- `ImageDataDirectory` (8 bytes packed): `vaddr` then `size`, both u32. -/
structure ImageDataDirectory where
  vaddr : Nat
  size : Nat
deriving DecidableEq

def readDataDir : FD → Except PdbErr (ImageDataDirectory × FD) :=
  readStruct 8 (fun bs => ⟨leNat (slice bs 0 4), leNat (slice bs 4 4)⟩)

/-- The `for _ in 0..num_tables` loop loading all data directories. -/
def readDataDirs (fd : FD) : Nat → Except PdbErr (List ImageDataDirectory × FD)
  | 0 => .ok ([], fd)
  | n + 1 =>
    match readDataDir fd with
    | .error e => .error e
    | .ok (d, fd') =>
      match readDataDirs fd' n with
      | .error e => .error e
      | .ok (rest, fd'') => .ok (d :: rest, fd'')

/-- `ImageSectionHeader` (40 bytes packed): the program reads `vaddr`
(offset 12), `raw_data_size` (offset 16) and `pointer_to_raw_data`
(offset 20), all u32. -/
structure ImageSectionHeader where
  vaddr : Nat
  raw_data_size : Nat
  pointer_to_raw_data : Nat
deriving DecidableEq

def readSection : FD → Except PdbErr (ImageSectionHeader × FD) :=
  readStruct 40 (fun bs =>
    ⟨leNat (slice bs 12 4), leNat (slice bs 16 4), leNat (slice bs 20 4)⟩)

/-- The `for _ in 0..pe_header.num_sections` loop. -/
def readSections (fd : FD) : Nat → Except PdbErr (List ImageSectionHeader × FD)
  | 0 => .ok ([], fd)
  | n + 1 =>
    match readSection fd with
    | .error e => .error e
    | .ok (s, fd') =>
      match readSections fd' n with
      | .error e => .error e
      | .ok (rest, fd'') => .ok (s :: rest, fd'')

/-- `ImageDebugDirectory` (28 bytes packed): the program reads `typ`
(offset 12), `size_of_data` (offset 16) and `pointer_to_raw_data`
(offset 24), all u32. -/
structure ImageDebugDirectory where
  typ : Nat
  size_of_data : Nat
  pointer_to_raw_data : Nat
deriving DecidableEq

def readDebugDir : FD → Except PdbErr (ImageDebugDirectory × FD) :=
  readStruct 28 (fun bs =>
    ⟨leNat (slice bs 12 4), leNat (slice bs 16 4), leNat (slice bs 24 4)⟩)

/-- `CodeviewEntry` (24 bytes packed): `signature` at 0 (4 bytes),
`guid_a` at 4 (u32), `guid_b` at 8 (u16), `guid_c` at 10 (u16),
`guid_d` at 12 (8 bytes), `age` at 20 (u32). -/
structure CodeviewEntry where
  signature : List Nat
  guid_a : Nat
  guid_b : Nat
  guid_c : Nat
  guid_d : List Nat
  age : Nat
deriving DecidableEq

def readCodeview : FD → Except PdbErr (CodeviewEntry × FD) :=
  readStruct 24 (fun bs =>
    ⟨slice bs 0 4, leNat (slice bs 4 4), leNat (slice bs 8 2),
     leNat (slice bs 10 2), slice bs 12 8, leNat (slice bs 20 4)⟩)

/-- `parse_pe`: open the file, check the MZ signature, seek to and check
the PE header, and read the bitness-specific optional header, yielding
`(fd, mz_header, pe_header, image_size, num_tables)`. -/
def parse_pe (data : List Nat) :
    Except PdbErr (FD × MZHeader × PEHeader × Nat × Nat) :=
  match readMZ ⟨data, 0⟩ with
  | .error e => .error e
  | .ok (mz, fd) =>
    if mz.signature ≠ [77, 90] then .error (.err "No MZ header present")
    else
      match readPE (seekTo fd mz.new_header) with
      | .error e => .error e
      | .ok (pe, fd') =>
        if pe.signature ≠ [80, 69, 0, 0] then .error (.err "No PE header present")
        else if pe.machine = 332 then
          match readOpt32 fd' with
          | .error e => .error e
          | .ok ((isz, nt), fd'') => .ok (fd'', mz, pe, isz, nt)
        else if pe.machine = 512 ∨ pe.machine = 34404 then
          match readOpt64 fd' with
          | .error e => .error e
          | .ok ((isz, nt), fd'') => .ok (fd'', mz, pe, isz, nt)
        else .error (.err "Unsupported PE machine type")

/-- The data-directory validation block of `get_pdb`: at least 7 entries,
entry 6 present and non-zero, `size` an exact non-zero multiple of
`sizeof(ImageDebugDirectory) = 28`; yields the debug table and its entry
count `debug_table.size / 28`. -/
def checkDebugDirs (dataDirs : List ImageDataDirectory) :
    Except PdbErr (ImageDataDirectory × Nat) :=
  if dataDirs.length < 7 then .error (.err "No debug data directory")
  else if (dataDirs.getD 6 ⟨0, 0⟩).vaddr = 0 ∨ (dataDirs.getD 6 ⟨0, 0⟩).size = 0 then
    .error (.err "Debug directory not present or zero sized")
  else if (dataDirs.getD 6 ⟨0, 0⟩).size % 28 ≠ 0 ∨ (dataDirs.getD 6 ⟨0, 0⟩).size / 28 = 0 then
    .error (.err "No debug entries or not mod ImageDebugDirectory")
  else .ok (dataDirs.getD 6 ⟨0, 0⟩, (dataDirs.getD 6 ⟨0, 0⟩).size / 28)

/-- The helper `contains`, mimicking `Range::contains`:
`range.start <= item && item < range.end`. -/
def containsR (lo hi item : Nat) : Bool :=
  decide (lo ≤ item) && decide (item < hi)

/-- The section-scan loop of `get_pdb`: find the first section whose raw
range `vaddr .. vaddr + raw_data_size` (u32 arithmetic, hence the mod
`2^32`) contains both the debug directory's `vaddr` and its last byte
`vaddr + size - 1` (also u32 arithmetic), and map the debug vaddr to a
file offset `dvaddr - vaddr + pointer_to_raw_data`. -/
def findDebugSection : List ImageSectionHeader → Nat → Nat → Option Nat
  | [], _, _ => none
  | sec :: rest, dvaddr, dsize =>
    if containsR sec.vaddr ((sec.vaddr + sec.raw_data_size) % 4294967296) dvaddr &&
       containsR sec.vaddr ((sec.vaddr + sec.raw_data_size) % 4294967296)
         ((dvaddr + dsize + 4294967295) % 4294967296) then
      some ((dvaddr - sec.vaddr + sec.pointer_to_raw_data) % 4294967296)
    else findDebugSection rest dvaddr dsize

/-- Uppercase hex digit (`0-9A-F`). -/
def hexDigitU (n : Nat) : Char :=
  if n < 10 then Char.ofNat (48 + n) else Char.ofNat (55 + n)

/-- Lowercase hex digit (`0-9a-f`). -/
def hexDigitL (n : Nat) : Char :=
  if n < 10 then Char.ofNat (48 + n) else Char.ofNat (87 + n)

/-- Fuel-driven uppercase hex digits of `n`, most significant first
(fuel only bounds the recursion depth; `n + 1` fuel always suffices). -/
def toHexUCore : Nat → Nat → List Char
  | 0, _ => []
  | fuel + 1, n =>
    if n < 16 then [hexDigitU n]
    else toHexUCore fuel (n / 16) ++ [hexDigitU (n % 16)]

/-- Fuel-driven lowercase hex digits of `n`, most significant first. -/
def toHexLCore : Nat → Nat → List Char
  | 0, _ => []
  | fuel + 1, n =>
    if n < 16 then [hexDigitL n]
    else toHexLCore fuel (n / 16) ++ [hexDigitL (n % 16)]

/-- The unpadded uppercase hex digits of `n`, as Rust `{:X}` prints them. -/
def toHexU (n : Nat) : List Char := toHexUCore (n + 1) n

/-- Rust `{:x}`: minimal lowercase hex digits, no padding (`0` for zero). -/
def rustHexLower (n : Nat) : List Char := toHexLCore (n + 1) n

/-- Rust `{:0wX}`: uppercase hex digits of `n` left-padded with `0` to a
minimum width of `w` (more digits are kept if `n` needs them). -/
def rustHexUpperPad (w n : Nat) : List Char :=
  List.replicate (w - (toHexU n).length) '0' ++ toHexU n

/-- The `format!` call of `get_pdb`, the format string `symchk` uses:
`"{},{:08X}{:04X}{:04X}{:02X}{:02X}{:02X}{:02X}{:02X}{:02X}{:02X}{:02X}{:x},1"`
applied to the name, `guid_a`, `guid_b`, `guid_c`, the eight bytes of
`guid_d` and `age`. -/
def renderIdentity (name : String) (a b c : Nat) (d : List Nat) (age : Nat) :
    String :=
  ⟨name.data ++ [','] ++ rustHexUpperPad 8 a ++ rustHexUpperPad 4 b ++
   rustHexUpperPad 4 c ++ (d.map (rustHexUpperPad 2)).flatten ++
   rustHexLower age ++ [',', '1']⟩

/-- `str::from_utf8`: decode a byte list as UTF-8, rejecting invalid
leading bytes, truncated sequences, overlong encodings, surrogates and
values above `U+10FFFF`, exactly as the Rust validator does. -/
def utf8Decode : List Nat → Option (List Char)
  | [] => some []
  | b :: rest =>
    if b < 128 then
      match utf8Decode rest with
      | some cs => some (Char.ofNat b :: cs)
      | none => none
    else if 194 ≤ b ∧ b ≤ 223 then
      match rest with
      | b2 :: rest2 =>
        if 128 ≤ b2 ∧ b2 ≤ 191 then
          match utf8Decode rest2 with
          | some cs => some (Char.ofNat ((b - 192) * 64 + (b2 - 128)) :: cs)
          | none => none
        else none
      | [] => none
    else if 224 ≤ b ∧ b ≤ 239 then
      match rest with
      | b2 :: b3 :: rest3 =>
        if ((if b = 224 then 160 else 128) ≤ b2 ∧
            b2 ≤ (if b = 237 then 159 else 191)) ∧
           (128 ≤ b3 ∧ b3 ≤ 191) then
          match utf8Decode rest3 with
          | some cs =>
            some (Char.ofNat ((b - 224) * 4096 + (b2 - 128) * 64 + (b3 - 128)) :: cs)
          | none => none
        else none
      | _ => none
    else if 240 ≤ b ∧ b ≤ 244 then
      match rest with
      | b2 :: b3 :: b4 :: rest4 =>
        if ((if b = 240 then 144 else 128) ≤ b2 ∧
            b2 ≤ (if b = 244 then 143 else 191)) ∧
           (128 ≤ b3 ∧ b3 ≤ 191) ∧ (128 ≤ b4 ∧ b4 ≤ 191) then
          match utf8Decode rest4 with
          | some cs =>
            some (Char.ofNat ((b - 240) * 262144 + (b2 - 128) * 4096 +
                              (b3 - 128) * 64 + (b4 - 128)) :: cs)
          | none => none
        else none
      | _ => none
    else none

/-- Path separator set of `std::path::Path` on Windows, the platform the
tool's path handling targets (PDB paths are Windows paths): `/` and `\`. -/
def isSep (c : Char) : Bool := decide (c = '/') || decide (c = '\\')

/-- Scan components from the end, as `Path::file_name` does: skip empty
and `.` components, refuse `..`, otherwise yield the last component. -/
def fileNameAux : List String → Option String
  | [] => none
  | p :: ps =>
    if p = "" ∨ p = "." then fileNameAux ps
    else if p = ".." then none
    else some p

/-- Split a character list at every character satisfying `p`, keeping
empty pieces — the char-level core of Rust's `str::split`. -/
def splitChar (p : Char → Bool) : List Char → List (List Char)
  | [] => [[]]
  | x :: xs =>
    match splitChar p xs with
    | [] => [[]]
    | y :: ys => if p x then [] :: y :: ys else (x :: y) :: ys

/-- `Path::new(s).file_name()`. -/
def fileName (s : String) : Option String :=
  fileNameAux (((splitChar isSep s.data).map fun l => (⟨l⟩ : String)).reverse)

/-- The body of the `typ == IMAGE_DEBUG_TYPE_CODEVIEW` branch of the debug
entry loop: seek to the raw CodeView record, check the `RSDS` magic, read
the trailing path string of declared length `size_of_data - 24` (the
`usize` subtraction underflows and the program panics in debug builds —
and aborts on an absurd allocation in release builds — when
`size_of_data < 24`, modelled by `PdbErr.panicked`), split at the first
NUL, decode UTF-8, take the file-name component and render the identity. -/
def handleCodeview (fd₀ : FD) (de : ImageDebugDirectory) : Except PdbErr String :=
  match readCodeview (seekTo fd₀ de.pointer_to_raw_data) with
  | .error e => .error e
  | .ok (cv, fd) =>
    if cv.signature ≠ [82, 83, 68, 83] then
      .error (.err "No RSDS signature present in codeview ent")
    else if de.size_of_data < 24 then
      .error (.panicked "attempt to subtract with overflow")
    else
      match readBytes fd (de.size_of_data - 24) with
      | .error e => .error e
      | .ok (dpath, _) =>
        match dpath.findIdx? (fun x => decide (x = 0)) with
        | none => .error (.err "Failed to find null terminiator in RSDS")
        | some null_strlen =>
          match utf8Decode (dpath.take null_strlen) with
          | none => .error (.err "invalid utf-8 sequence")
          | some chars =>
            match fileName ⟨chars⟩ with
            | none => .error (.err "Could not parse file from RSDS path")
            | some pdbfilename =>
              .ok (renderIdentity pdbfilename cv.guid_a cv.guid_b cv.guid_c
                     cv.guid_d cv.age)

/-- The `for _ in 0..debug_table_ents` loop: read entries in order and
hand the first one with `typ = IMAGE_DEBUG_TYPE_CODEVIEW = 2` to the
CodeView handler; fail if none is found after exhausting all entries. -/
def scanDebugEntries (fd : FD) : Nat → Except PdbErr String
  | 0 => .error (.err "Failed to find RSDS codeview directory")
  | n + 1 =>
    match readDebugDir fd with
    | .error e => .error e
    | .ok (de, fd') =>
      if de.typ = 2 then handleCodeview fd' de
      else scanDebugEntries fd' n

/-- `get_pdb`: parse the PE headers, load and validate the data
directories, read the section table, map the debug directory's virtual
address to a file offset, and scan the debug entries for the CodeView
record, rendering the `symchk`-compatible identity string. -/
def get_pdb (data : List Nat) : Except PdbErr String :=
  match parse_pe data with
  | .error e => .error e
  | .ok (fd, mz, pe, _, num_tables) =>
    match readDataDirs fd num_tables with
    | .error e => .error e
    | .ok (data_dirs, fd') =>
      match checkDebugDirs data_dirs with
      | .error e => .error e
      | .ok (debug_table, debug_table_ents) =>
        match readSections (seekTo fd' (mz.new_header + 24 + pe.optional_header_size))
            pe.num_sections with
        | .error e => .error e
        | .ok (sections, fd'') =>
          match findDebugSection sections debug_table.vaddr debug_table.size with
          | none => .error (.err "Unable to find debug data")
          | some debug_raw_ptr =>
            scanDebugEntries (seekTo fd'' debug_raw_ptr) debug_table_ents

/-!
Embedding of `src/sym.rs`: the symbol-server spec parser and the
concurrent fetcher.  The fetcher's effects are modelled against an
explicit filesystem state (sets of existing directory and file paths) and
an HTTP oracle `http : String → Nat` giving the status code returned for
each URL; the per-line async task becomes the pure step `processLine`, and
`runManifest` threads the state through the lines sequentially — one
admissible schedule of the task stream `download_manifest` builds. -/

/-- `SymSrv { server, filepath }`: remote base URL and local cache root. -/
structure SymSrv where
  server : String
  filepath : String
deriving DecidableEq

/-- `SymSrv::from_str`: split on `*`; if the first token is `SRV`, require
exactly 3 tokens and return `{ server := tokens[2], filepath := tokens[1] }`.
When the first token is not `SRV` control falls out of the `match` into
`unreachable!()` — a panic; the `None` arm carrying the intended
"Unsupported server string form" error is dead code because `split` always
yields at least one token. -/
def symsrv_from_str (srv : String) : Except PdbErr SymSrv :=
  let directives := (splitChar (fun c => decide (c = '*')) srv.data).map
    fun l => (⟨l⟩ : String)
  match directives.head? with
  | some x =>
    if x = "SRV" then
      if directives.length ≠ 3 then .error (.err "")
      else .ok ⟨directives[2]!, directives[1]!⟩
    else .error (.panicked "internal error: entered unreachable code")
  | none => .error (.err "Unsupported server string form")

/-- Filesystem state: the directory paths and file paths that exist.
`create_dir_all` is represented as inserting the directory path (standing
for the path and its parent chain). -/
structure FsState where
  dirs : List String
  files : List String
deriving DecidableEq

/-- `std::fs::create_dir_all`: idempotent directory creation. -/
def createDirAll (fs : FsState) (d : String) : FsState :=
  if d ∈ fs.dirs then fs else ⟨d :: fs.dirs, fs.files⟩

/-- `Path::exists`: true for an existing file or directory. -/
def pathExists (fs : FsState) (p : String) : Bool :=
  decide (p ∈ fs.dirs ∨ p ∈ fs.files)

/-- Creating and filling the output file. -/
def createFile (fs : FsState) (p : String) : FsState := ⟨fs.dirs, p :: fs.files⟩

/-- How one manifest line's task finished. -/
inductive FetchOutcome where
  | panicked (msg : String)
  | skipped
  | fetched
  | failed (status : Nat)
deriving DecidableEq

/-- Result of one task: its outcome, the filesystem afterwards, and the
list of URLs it issued HTTP GET requests for. -/
structure StepResult where
  outcome : FetchOutcome
  fs : FsState
  requests : List String
deriving DecidableEq

/-- `line.split(",")`: the comma-separated fields of one manifest line. -/
def lineFields (line : String) : List String :=
  (splitChar (fun c => decide (c = ',')) line.data).map fun l => (⟨l⟩ : String)

/-- The relative storage path `<name>/<guidage>/<name>` built from the
fields of a manifest line — the symbol-server canonical layout. -/
def pdbPathOf (el : List String) : String :=
  el[0]! ++ "/" ++ el[1]! ++ "/" ++ el[0]!

/-- The async block `download_manifest` spawns per manifest line: split
the line on commas (panicking on anything but 3 fields), create
`<cache>/<name>/<guidage>`, skip if `<cache>/<name>/<guidage>/<name>`
already exists, otherwise GET `<server>/<name>/<guidage>/<name>`, failing
on a non-200 status and writing the body to the target file on 200. -/
def processLine (srv : SymSrv) (http : String → Nat) (fs : FsState)
    (line : String) : StepResult :=
  if (lineFields line).length ≠ 3 then
    ⟨.panicked ("Invalid manifest line encountered: " ++ line), fs, []⟩
  else
    if pathExists
        (createDirAll fs
          (srv.filepath ++ "/" ++ (lineFields line)[0]! ++ "/" ++ (lineFields line)[1]!))
        (srv.filepath ++ "/" ++ pdbPathOf (lineFields line)) then
      ⟨.skipped,
       createDirAll fs
         (srv.filepath ++ "/" ++ (lineFields line)[0]! ++ "/" ++ (lineFields line)[1]!),
       []⟩
    else if http (srv.server ++ "/" ++ pdbPathOf (lineFields line)) ≠ 200 then
      ⟨.failed (http (srv.server ++ "/" ++ pdbPathOf (lineFields line))),
       createDirAll fs
         (srv.filepath ++ "/" ++ (lineFields line)[0]! ++ "/" ++ (lineFields line)[1]!),
       [srv.server ++ "/" ++ pdbPathOf (lineFields line)]⟩
    else
      ⟨.fetched,
       createFile
         (createDirAll fs
           (srv.filepath ++ "/" ++ (lineFields line)[0]! ++ "/" ++ (lineFields line)[1]!))
         (srv.filepath ++ "/" ++ pdbPathOf (lineFields line)),
       [srv.server ++ "/" ++ pdbPathOf (lineFields line)]⟩

/-- Sequential execution of the task stream: thread the filesystem state
through the lines in order, collecting every issued request.  (The real
driver admits up to 64 tasks at once; this is one admissible schedule.) -/
def runManifest (srv : SymSrv) (http : String → Nat) :
    FsState → List String → FsState × List String
  | fs, [] => (fs, [])
  | fs, line :: rest =>
    let r := processLine srv http fs line
    let (fs', reqs) := runManifest srv http r.fs rest
    (fs', r.requests ++ reqs)

/-- `download_manifest`: reject multi-server (`;`-separated) specs, parse
the single spec, create the cache root, then drive the per-line tasks.
The observable result is the final filesystem state and the requests
issued (the source discards the per-task results). -/
def download_manifest (srvlist : String) (http : String → Nat) (fs : FsState)
    (files : List String) : Except PdbErr (FsState × List String) :=
  let srvstr := (splitChar (fun c => decide (c = ';')) srvlist.data).map
    fun l => (⟨l⟩ : String)
  if srvstr.length ≠ 1 then
    .error (.err "Only one symbol server/path supported at this time.")
  else
    match symsrv_from_str srvstr[0]! with
    | .error e => .error e
    | .ok srv => .ok (runManifest srv http (createDirAll fs srv.filepath) files)

/-!
Concrete synthetic PE files used as witnesses.  `le16`/`le32` write an
integer as little-endian bytes; the layout constants follow the packed
struct sizes: MZ header 64 bytes at 0, PE header 24 bytes at 64, 96-byte
PE32 optional header at 88, 7 data directories at 184, one 40-byte section
header at 240, one 28-byte debug directory entry at 280, the 24-byte
CodeView record at 308 and the path string `foo.pdb\0` at 332. -/

def le16 (n : Nat) : List Nat := [n % 256, n / 256 % 256]

def le32 (n : Nat) : List Nat :=
  [n % 256, n / 256 % 256, n / 65536 % 256, n / 16777216 % 256]

def mzBytes : List Nat := [77, 90] ++ List.replicate 58 0 ++ le32 64

def peHeaderBytes : List Nat :=
  [80, 69, 0, 0] ++ le16 332 ++ le16 1 ++ le32 0 ++ le32 0 ++ le32 0 ++
  le16 152 ++ le16 0

def optHeaderBytes : List Nat := List.replicate 92 0 ++ le32 7

def dataDirsBytes : List Nat := List.replicate 48 0 ++ le32 4096 ++ le32 28

def sectionBytes : List Nat :=
  List.replicate 8 0 ++ le32 0 ++ le32 4096 ++ le32 256 ++ le32 280 ++
  le32 0 ++ le32 0 ++ le16 0 ++ le16 0 ++ le32 0

def debugEntryBytes (typ sod praw : Nat) : List Nat :=
  le32 0 ++ le32 0 ++ le16 0 ++ le16 0 ++ le32 typ ++ le32 sod ++ le32 0 ++
  le32 praw

def cvBytes (a b c : Nat) (d : List Nat) (age : Nat) : List Nat :=
  [82, 83, 68, 83] ++ le32 a ++ le16 b ++ le16 c ++ d ++ le32 age

def pdbNameBytes : List Nat := [102, 111, 111, 46, 112, 100, 98, 0]

/-- A well-formed PE32 file with one CodeView RSDS record: GUID
`(1, 2, 3, [0,…,7])`, age 10, PDB path `foo.pdb`. -/
def goodFile : List Nat :=
  mzBytes ++ peHeaderBytes ++ optHeaderBytes ++ dataDirsBytes ++
  sectionBytes ++ debugEntryBytes 2 32 308 ++
  cvBytes 1 2 3 [0, 1, 2, 3, 4, 5, 6, 7] 10 ++ pdbNameBytes

/-- The same file but with the debug entry's `size_of_data` equal to 20,
smaller than the 24-byte fixed CodeView header. -/
def badSizeFile : List Nat :=
  mzBytes ++ peHeaderBytes ++ optHeaderBytes ++ dataDirsBytes ++
  sectionBytes ++ debugEntryBytes 2 20 308 ++
  cvBytes 1 2 3 [0, 1, 2, 3, 4, 5, 6, 7] 10 ++ pdbNameBytes

/-! Basic facts about the structured reader. -/

theorem readBytes_ok {fd : FD} {n : Nat} {bs : List Nat} {fd' : FD}
    (h : readBytes fd n = .ok (bs, fd')) :
    fd'.data = fd.data ∧ bs.length = n ∧ ∀ b ∈ bs, b < 256 := by
  unfold readBytes at h
  split at h
  · rename_i hle
    simp only [Except.ok.injEq, Prod.mk.injEq] at h
    obtain ⟨hbs, hfd⟩ := h
    subst hbs
    subst hfd
    refine ⟨rfl, ?_, ?_⟩
    · simp only [List.length_map, List.length_take, List.length_drop]
      omega
    · intro b hb
      simp only [List.mem_map] at hb
      obtain ⟨a, _, rfl⟩ := hb
      exact Nat.mod_lt _ (by norm_num)
  · exact absurd h (by simp)

theorem readStruct_ok {α : Type} {k : Nat} {f : List Nat → α} {fd : FD} {a : α}
    {fd' : FD} (h : readStruct k f fd = .ok (a, fd')) :
    fd'.data = fd.data ∧ ∃ bs, bs.length = k ∧ (∀ b ∈ bs, b < 256) ∧ a = f bs := by
  unfold readStruct at h
  split at h
  · exact absurd h (by simp)
  · rename_i bs fd'' heq
    simp only [Except.ok.injEq, Prod.mk.injEq] at h
    obtain ⟨ha, hfd⟩ := h
    subst hfd
    obtain ⟨h1, h2, h3⟩ := readBytes_ok heq
    exact ⟨h1, bs, h2, h3, ha.symm⟩

theorem leNat_lt_pow {bs : List Nat} (h : ∀ b ∈ bs, b < 256) :
    leNat bs < 256 ^ bs.length := by
  induction bs with
  | nil => simp [leNat]
  | cons b bs ih =>
    have hb : b < 256 := h b (List.mem_cons_self ..)
    have ht : leNat bs < 256 ^ bs.length :=
      ih fun x hx => h x (List.mem_cons_of_mem _ hx)
    simp only [leNat, List.length_cons, pow_succ]
    omega

theorem slice_length {bs : List Nat} {off len : Nat} (h : off + len ≤ bs.length) :
    (slice bs off len).length = len := by
  simp only [slice, List.length_take, List.length_drop]
  omega

theorem slice_mem {bs : List Nat} {off len x : Nat} (hx : x ∈ slice bs off len) :
    x ∈ bs :=
  List.drop_subset _ _ (List.take_subset _ _ hx)

theorem slice_lt {bs : List Nat} (hb : ∀ b ∈ bs, b < 256) (off len : Nat)
    (h : off + len ≤ bs.length) : leNat (slice bs off len) < 256 ^ len := by
  have := @leNat_lt_pow (slice bs off len) fun x hx => hb x (slice_mem hx)
  rwa [slice_length h] at this

/-! Cursor movement never changes the underlying file contents; these
lemmas track that through every reader `get_pdb` composes. -/

theorem readDataDir_data {fd fd' : FD} {d : ImageDataDirectory}
    (h : readDataDir fd = .ok (d, fd')) : fd'.data = fd.data :=
  (readStruct_ok h).1

theorem readSection_data {fd fd' : FD} {s : ImageSectionHeader}
    (h : readSection fd = .ok (s, fd')) : fd'.data = fd.data :=
  (readStruct_ok h).1

theorem readDebugDir_data {fd fd' : FD} {d : ImageDebugDirectory}
    (h : readDebugDir fd = .ok (d, fd')) : fd'.data = fd.data :=
  (readStruct_ok h).1

theorem readDataDirs_data : ∀ {n : Nat} {fd fd' : FD} {l : List ImageDataDirectory},
    readDataDirs fd n = .ok (l, fd') → fd'.data = fd.data := by
  intro n
  induction n with
  | zero =>
    intro fd fd' l h
    unfold readDataDirs at h
    simp only [Except.ok.injEq, Prod.mk.injEq] at h
    rw [← h.2]
  | succ n ih =>
    intro fd fd' l h
    unfold readDataDirs at h
    split at h
    · exact absurd h (by simp)
    · rename_i d fd1 heq1
      split at h
      · exact absurd h (by simp)
      · rename_i rest fd2 heq2
        simp only [Except.ok.injEq, Prod.mk.injEq] at h
        rw [← h.2]
        exact (ih heq2).trans (readDataDir_data heq1)

theorem readSections_data : ∀ {n : Nat} {fd fd' : FD} {l : List ImageSectionHeader},
    readSections fd n = .ok (l, fd') → fd'.data = fd.data := by
  intro n
  induction n with
  | zero =>
    intro fd fd' l h
    unfold readSections at h
    simp only [Except.ok.injEq, Prod.mk.injEq] at h
    rw [← h.2]
  | succ n ih =>
    intro fd fd' l h
    unfold readSections at h
    split at h
    · exact absurd h (by simp)
    · rename_i s fd1 heq1
      split at h
      · exact absurd h (by simp)
      · rename_i rest fd2 heq2
        simp only [Except.ok.injEq, Prod.mk.injEq] at h
        rw [← h.2]
        exact (ih heq2).trans (readSection_data heq1)

theorem parse_pe_data {data : List Nat} {fd : FD} {mz : MZHeader} {pe : PEHeader}
    {isz nt : Nat} (h : parse_pe data = .ok (fd, mz, pe, isz, nt)) :
    fd.data = data := by
  unfold parse_pe at h
  split at h
  · exact absurd h (by simp)
  · rename_i mz' fd1 heq1
    have h1 : fd1.data = data := (readStruct_ok heq1).1
    split at h
    · exact absurd h (by simp)
    · split at h
      · exact absurd h (by simp)
      · rename_i pe' fd2 heq2
        have h2 : fd2.data = data := ((readStruct_ok heq2).1).trans h1
        split at h
        · exact absurd h (by simp)
        · split at h
          · split at h
            · exact absurd h (by simp)
            · rename_i p fd3 heq3
              simp only [Except.ok.injEq, Prod.mk.injEq] at h
              rw [← h.1]
              exact ((readStruct_ok heq3).1).trans h2
          · split at h
            · split at h
              · exact absurd h (by simp)
              · rename_i p fd3 heq3
                simp only [Except.ok.injEq, Prod.mk.injEq] at h
                rw [← h.1]
                exact ((readStruct_ok heq3).1).trans h2
            · exact absurd h (by simp)

theorem scanDebugEntries_ok : ∀ {n : Nat} {fd : FD} {s : String},
    scanDebugEntries fd n = .ok s →
    ∃ fd' de, fd'.data = fd.data ∧ handleCodeview fd' de = .ok s := by
  intro n
  induction n with
  | zero =>
    intro fd s h
    exact absurd h (by simp [scanDebugEntries])
  | succ n ih =>
    intro fd s h
    unfold scanDebugEntries at h
    split at h
    · exact absurd h (by simp)
    · rename_i de fd1 heq
      split at h
      · exact ⟨fd1, de, readDebugDir_data heq, h⟩
      · obtain ⟨fd2, de2, hdata, hh⟩ := ih h
        exact ⟨fd2, de2, hdata.trans (readDebugDir_data heq), hh⟩

theorem get_pdb_ok {data : List Nat} {s : String} (h : get_pdb data = .ok s) :
    ∃ fd de, fd.data = data ∧ handleCodeview fd de = .ok s := by
  unfold get_pdb at h
  split at h
  · exact absurd h (by simp)
  · rename_i fd mz pe isz nt heq1
    split at h
    · exact absurd h (by simp)
    · rename_i dds fd1 heq2
      split at h
      · exact absurd h (by simp)
      · rename_i dt ents heq3
        split at h
        · exact absurd h (by simp)
        · rename_i secs fd2 heq4
          split at h
          · exact absurd h (by simp)
          · rename_i ptr heq5
            obtain ⟨fd3, de, hdata, hh⟩ := scanDebugEntries_ok h
            refine ⟨fd3, de, ?_, hh⟩
            calc fd3.data = fd2.data := hdata
              _ = (seekTo fd1 (mz.new_header + 24 + pe.optional_header_size)).data :=
                readSections_data heq4
              _ = fd1.data := rfl
              _ = fd.data := readDataDirs_data heq2
              _ = data := parse_pe_data heq1

/-- Whenever the CodeView handler succeeds, its output is the `symchk`
format string applied to a decoded name, GUID and age with the bounds the
byte decoder guarantees. -/
theorem handleCodeview_ok {fd : FD} {de : ImageDebugDirectory} {s : String}
    (h : handleCodeview fd de = .ok s) :
    ∃ name a b c d age, a < 2 ^ 32 ∧ b < 2 ^ 16 ∧ c < 2 ^ 16 ∧ d.length = 8 ∧
      (∀ x ∈ d, x < 256) ∧ age < 2 ^ 32 ∧
      s = renderIdentity name a b c d age := by
  unfold handleCodeview at h
  split at h
  · exact absurd h (by simp)
  · rename_i cv fd1 heq
    obtain ⟨-, bs, hlen, hbyte, hcv⟩ := readStruct_ok heq
    split at h
    · exact absurd h (by simp)
    · split at h
      · exact absurd h (by simp)
      · split at h
        · exact absurd h (by simp)
        · rename_i dpath fd2 heq2
          split at h
          · exact absurd h (by simp)
          · rename_i nullpos heq3
            split at h
            · exact absurd h (by simp)
            · rename_i chars heq4
              split at h
              · exact absurd h (by simp)
              · rename_i pdbfilename heq5
                simp only [Except.ok.injEq] at h
                refine ⟨pdbfilename, cv.guid_a, cv.guid_b, cv.guid_c, cv.guid_d,
                  cv.age, ?_, ?_, ?_, ?_, ?_, ?_, h.symm⟩
                · have := slice_lt hbyte 4 4 (by omega)
                  rw [hcv]
                  simpa using this
                · have := slice_lt hbyte 8 2 (by omega)
                  rw [hcv]
                  simpa using this
                · have := slice_lt hbyte 10 2 (by omega)
                  rw [hcv]
                  simpa using this
                · rw [hcv]
                  exact slice_length (by omega)
                · intro x hx
                  rw [hcv] at hx
                  exact hbyte x (slice_mem hx)
                · have := slice_lt hbyte 20 4 (by omega)
                  rw [hcv]
                  simpa using this

/-! The spec's description of the rendered identity string, and its
agreement with the `format!` call of the source for in-range field
values. -/

/-- A fixed-width hex group as the spec describes it: exactly `w`
uppercase hexadecimal digits of `n`, most significant first. -/
def hexFixedChars : Nat → Nat → List Char
  | 0, _ => []
  | w + 1, n => hexFixedChars w (n / 16) ++ [hexDigitU (n % 16)]

/-- The spec's rendered form: `<name>`, a comma, the GUID as an 8-digit,
two 4-digit and eight 2-digit uppercase fixed-width hex groups with no
separators, immediately followed by the age in minimal lowercase hex,
then the literal suffix `,1`. -/
def specIdentityString (name : String) (a b c : Nat) (d : List Nat)
    (age : Nat) : String :=
  ⟨name.data ++ [','] ++ hexFixedChars 8 a ++ hexFixedChars 4 b ++
   hexFixedChars 4 c ++ (d.map (hexFixedChars 2)).flatten ++
   rustHexLower age ++ [',', '1']⟩

theorem toHexUCore_fuel : ∀ {f f' n : Nat}, n < 16 ^ (f + 1) → n < 16 ^ (f' + 1) →
    toHexUCore (f + 1) n = toHexUCore (f' + 1) n := by
  intro f
  induction f with
  | zero =>
    intro f' n h1 h2
    have hn : n < 16 := by simpa using h1
    unfold toHexUCore
    simp [hn]
  | succ f ih =>
    intro f' n h1 h2
    by_cases hn : n < 16
    · unfold toHexUCore
      simp [hn]
    · cases f' with
      | zero =>
        have : n < 16 := by simpa using h2
        omega
      | succ f'' =>
        have hd1 : n / 16 < 16 ^ (f + 1) := by
          rw [Nat.div_lt_iff_lt_mul (by norm_num)]
          calc n < 16 ^ (f + 1 + 1) := h1
            _ = 16 ^ (f + 1) * 16 := by ring
        have hd2 : n / 16 < 16 ^ (f'' + 1) := by
          rw [Nat.div_lt_iff_lt_mul (by norm_num)]
          calc n < 16 ^ (f'' + 1 + 1) := h2
            _ = 16 ^ (f'' + 1) * 16 := by ring
        unfold toHexUCore
        simp only [hn, if_false]
        rw [ih hd1 hd2]

theorem toHexU_eq (n : Nat) :
    toHexU n = if n < 16 then [hexDigitU n]
               else toHexU (n / 16) ++ [hexDigitU (n % 16)] := by
  by_cases hn : n < 16
  · unfold toHexU toHexUCore
    simp [hn]
  · obtain ⟨k, rfl⟩ : ∃ k, n = k + 1 := ⟨n - 1, by omega⟩
    unfold toHexU
    rw [toHexUCore]
    simp only [hn, if_false]
    congr 1
    have hself : ∀ m : Nat, m < 16 ^ (m + 1) := by
      intro m
      calc m < 16 ^ m := Nat.lt_pow_self (by norm_num) m
        _ ≤ 16 ^ (m + 1) := Nat.pow_le_pow_right (by norm_num) (by omega)
    have h1 : (k + 1) / 16 < 16 ^ (k + 1) := by
      calc (k + 1) / 16 ≤ k + 1 := Nat.div_le_self _ _
        _ < 16 ^ (k + 1) := Nat.lt_pow_self (by norm_num) (k + 1)
    exact toHexUCore_fuel h1 (hself _)

theorem hexFixedChars_zero : ∀ w : Nat, hexFixedChars w 0 = List.replicate w '0' := by
  intro w
  induction w with
  | zero => rfl
  | succ w ih =>
    rw [hexFixedChars, Nat.zero_div, Nat.zero_mod, ih, List.replicate_succ']
    congr 1

theorem rustHexUpperPad_eq_fixed : ∀ {w n : Nat}, 0 < w → n < 16 ^ w →
    rustHexUpperPad w n = hexFixedChars w n := by
  intro w
  induction w with
  | zero => omega
  | succ w ih =>
    intro n _ hn
    by_cases h16 : n < 16
    · unfold rustHexUpperPad
      rw [toHexU_eq]
      simp only [h16, if_true, List.length_singleton]
      rw [hexFixedChars, Nat.div_eq_of_lt h16, Nat.mod_eq_of_lt h16,
        hexFixedChars_zero]
      congr 1
    · have hw : 0 < w := by
        rcases Nat.eq_zero_or_pos w with hw0 | hw0
        · subst hw0
          simp at hn
          omega
        · exact hw0
      have hdiv : n / 16 < 16 ^ w := by
        rw [Nat.div_lt_iff_lt_mul (by norm_num)]
        calc n < 16 ^ (w + 1) := hn
          _ = 16 ^ w * 16 := by ring
      unfold rustHexUpperPad
      rw [toHexU_eq]
      simp only [h16, if_false, List.length_append, List.length_singleton]
      rw [hexFixedChars, ← ih hw hdiv]
      unfold rustHexUpperPad
      rw [List.append_assoc]
      congr 2
      omega

theorem renderIdentity_eq_spec {name : String} {a b c : Nat} {d : List Nat}
    {age : Nat} (ha : a < 2 ^ 32) (hb : b < 2 ^ 16) (hc : c < 2 ^ 16)
    (hd : ∀ x ∈ d, x < 256) :
    renderIdentity name a b c d age = specIdentityString name a b c d age := by
  unfold renderIdentity specIdentityString
  have h8 : rustHexUpperPad 8 a = hexFixedChars 8 a :=
    rustHexUpperPad_eq_fixed (by norm_num) (by norm_num at ha ⊢; omega)
  have h4b : rustHexUpperPad 4 b = hexFixedChars 4 b :=
    rustHexUpperPad_eq_fixed (by norm_num) (by norm_num at hb ⊢; omega)
  have h4c : rustHexUpperPad 4 c = hexFixedChars 4 c :=
    rustHexUpperPad_eq_fixed (by norm_num) (by norm_num at hc ⊢; omega)
  have hdmap : d.map (rustHexUpperPad 2) = d.map (hexFixedChars 2) := by
    apply List.map_congr_left
    intro x hx
    exact rustHexUpperPad_eq_fixed (by norm_num) (by have := hd x hx; norm_num; omega)
  rw [h8, h4b, h4c, hdmap]

/-- C1: whenever extraction succeeds, the rendered identity string is
exactly the PDB base name, a comma, the GUID as an 8-digit, two 4-digit
and eight 2-digit uppercase fixed-width hexadecimal groups with no
separators, immediately followed by the age in lowercase hexadecimal with
no leading-zero padding, then the literal suffix `,1`. -/
theorem pdb_identity_format {data : List Nat} {s : String}
    (h : get_pdb data = .ok s) :
    ∃ name a b c d age, a < 2 ^ 32 ∧ b < 2 ^ 16 ∧ c < 2 ^ 16 ∧ d.length = 8 ∧
      (∀ x ∈ d, x < 256) ∧ age < 2 ^ 32 ∧
      s = specIdentityString name a b c d age := by
  obtain ⟨fd, de, -, hh⟩ := get_pdb_ok h
  obtain ⟨name, a, b, c, d, age, ha, hb, hc, hdl, hd, hage, hs⟩ :=
    handleCodeview_ok hh
  exact ⟨name, a, b, c, d, age, ha, hb, hc, hdl, hd, hage,
    hs.trans (renderIdentity_eq_spec ha hb hc hd)⟩

/-- Witness for C1 at the concrete well-formed PE32 file `goodFile`
(GUID `(1, 2, 3, [0,…,7])`, age 10, PDB path `foo.pdb`). -/
theorem pdb_identity_format_witness :
    ∃ name a b c d age, a < 2 ^ 32 ∧ b < 2 ^ 16 ∧ c < 2 ^ 16 ∧ d.length = 8 ∧
      (∀ x ∈ d, x < 256) ∧ age < 2 ^ 32 ∧
      "foo.pdb,00000001000200030001020304050607a,1" =
        specIdentityString name a b c d age :=
  @pdb_identity_format goodFile "foo.pdb,00000001000200030001020304050607a,1" (by decide)

/-- C2 (code bug): the server-spec parser does not return an error for a
spec string whose first `*`-token is not `SRV`; it falls out of the match
into `unreachable!()` and panics. -/
theorem from_str_non_srv_panics :
    symsrv_from_str "DML*c:\\symbols*https://msdl.microsoft.com/download/symbols" =
      .error (.panicked "internal error: entered unreachable code") := by decide

/-- C3 (code bug): on a well-formed PE whose CodeView debug entry declares
`size_of_data = 20`, smaller than the 24-byte fixed CodeView header, the
trailing-string length `size_of_data - sizeof(CodeviewEntry)` underflows
`usize` and the program panics (debug) or aborts on an absurd allocation
(release) instead of returning an error result. -/
theorem get_pdb_size_underflow_panics :
    get_pdb badSizeFile = .error (.panicked "attempt to subtract with overflow") := by
  decide

/-- Sequential decode of `n` debug-directory entries starting at the
cursor: exactly the records the scan loop reads, used to state the
first-CodeView-wins characterization. -/
def readDebugList (fd : FD) : Nat → Except PdbErr (List ImageDebugDirectory × FD)
  | 0 => .ok ([], fd)
  | n + 1 =>
    match readDebugDir fd with
    | .error e => .error e
    | .ok (d, fd') =>
      match readDebugList fd' n with
      | .error e => .error e
      | .ok (rest, fd'') => .ok (d :: rest, fd'')

/-- The CodeView handler only looks at the file contents, never at the
incoming cursor position, because it seeks first. -/
theorem handleCodeview_data (fd : FD) (de : ImageDebugDirectory) :
    handleCodeview fd de = handleCodeview ⟨fd.data, 0⟩ de := rfl

/-- C4: the debug-directory scan uses the first entry (in table order)
whose type field equals CodeView (2), regardless of how many non-CodeView
entries precede it, and fails with the no-CodeView-entry error if no entry
has type 2 after exhausting all entries. -/
theorem first_codeview_entry_wins : ∀ {n : Nat} {fd fdEnd : FD}
    {es : List ImageDebugDirectory},
    readDebugList fd n = .ok (es, fdEnd) →
    scanDebugEntries fd n =
      match es.find? (fun e => decide (e.typ = 2)) with
      | some e => handleCodeview ⟨fd.data, 0⟩ e
      | none => .error (.err "Failed to find RSDS codeview directory") := by
  intro n
  induction n with
  | zero =>
    intro fd fdEnd es h
    unfold readDebugList at h
    simp only [Except.ok.injEq, Prod.mk.injEq] at h
    rw [← h.1]
    rfl
  | succ n ih =>
    intro fd fdEnd es h
    unfold readDebugList at h
    split at h
    · exact absurd h (by simp)
    · rename_i de fd1 heq1
      split at h
      · exact absurd h (by simp)
      · rename_i rest fd2 heq2
        simp only [Except.ok.injEq, Prod.mk.injEq] at h
        rw [← h.1]
        have hstep : scanDebugEntries fd (n + 1) =
            if de.typ = 2 then handleCodeview fd1 de else scanDebugEntries fd1 n := by
          rw [scanDebugEntries, heq1]
        rw [hstep]
        by_cases ht : de.typ = 2
        · rw [if_pos ht, List.find?_cons_of_pos _ (by simp [ht])]
          rw [handleCodeview_data fd1 de, readDebugDir_data heq1]
        · rw [if_neg ht, List.find?_cons_of_neg _ (by simp [ht])]
          rw [ih heq2, readDebugDir_data heq1]

/-- Debug-entry table whose first entry is not CodeView (type 0) and whose
second entry is CodeView (type 2) pointing at a valid RSDS record. -/
def scanWitnessBytes : List Nat :=
  debugEntryBytes 0 0 0 ++ debugEntryBytes 2 32 56 ++
  cvBytes 1 2 3 [0, 1, 2, 3, 4, 5, 6, 7] 10 ++ pdbNameBytes

/-- Witness for C4: with a non-CodeView entry first, the scan still
resolves to the CodeView handler on the second entry. -/
theorem first_codeview_entry_wins_witness :
    scanDebugEntries ⟨scanWitnessBytes, 0⟩ 2 =
      handleCodeview ⟨scanWitnessBytes, 0⟩ ⟨2, 32, 56⟩ :=
  @first_codeview_entry_wins 2 ⟨scanWitnessBytes, 0⟩ ⟨scanWitnessBytes, 56⟩
    [⟨0, 0, 0⟩, ⟨2, 32, 56⟩] (by decide)

/-- A section whose raw range ends exactly at `2^32`: the u32 sum
`vaddr + raw_data_size` wraps to 0, so the code's range check can never
hold for it even though the mathematical range `[vaddr, vaddr + size)`
contains the debug directory. -/
def overflowSection : ImageSectionHeader := ⟨4294967292, 4, 1024⟩

/-- C5 counterexample: `overflowSection` fully contains the debug range
`[4294967292, 4294967296)` in the claim's mathematical sense, yet the
locator rejects every section and returns `none` (so `get_pdb` would fail
with the unmapped-debug-directory error) because the u32 range end wraps
to 0. -/
theorem find_debug_section_overflow_counterexample :
    (overflowSection.vaddr ≤ 4294967292 ∧
     4294967292 + 4 ≤ overflowSection.vaddr + overflowSection.raw_data_size) ∧
    findDebugSection [overflowSection] 4294967292 4 = none := by decide

/-- C5 amended: provided the debug range and every section's raw range fit
in u32 without wrapping (and likewise the computed file offset), the
locator returns the first section in table order whose raw-data range
fully contains the debug directory's range, mapped through
`V - sec.vaddr + sec.pointer_to_raw_data`, and `none` (the
unmapped-debug-directory error) exactly when no section qualifies. -/
theorem find_debug_section_characterization :
    ∀ (sections : List ImageSectionHeader) (V S : Nat), 0 < S → V + S ≤ 2 ^ 32 →
    (∀ sec ∈ sections, sec.vaddr + sec.raw_data_size < 2 ^ 32) →
    (∀ sec ∈ sections, sec.vaddr ≤ V →
        V - sec.vaddr + sec.pointer_to_raw_data < 2 ^ 32) →
    findDebugSection sections V S =
      (sections.find? fun sec =>
          decide (sec.vaddr ≤ V ∧ V + S ≤ sec.vaddr + sec.raw_data_size)).map
        fun sec => V - sec.vaddr + sec.pointer_to_raw_data := by
  intro sections V S hS hVS
  have e32 : (2 : Nat) ^ 32 = 4294967296 := by norm_num
  rw [e32] at hVS
  induction sections with
  | nil =>
    intro _ _
    rfl
  | cons sec rest ih =>
    intro hsec hptr
    have hhead : sec.vaddr + sec.raw_data_size < 4294967296 := by
      have := hsec sec (List.mem_cons_self ..)
      omega
    have hmod : (sec.vaddr + sec.raw_data_size) % 4294967296 =
        sec.vaddr + sec.raw_data_size := Nat.mod_eq_of_lt hhead
    have hlast : (V + S + 4294967295) % 4294967296 = V + S - 1 := by
      have h1 : V + S + 4294967295 = (V + S - 1) + 4294967296 := by omega
      rw [h1, Nat.add_mod_right]
      exact Nat.mod_eq_of_lt (by omega)
    rw [findDebugSection, hmod, hlast]
    by_cases hcond : sec.vaddr ≤ V ∧ V + S ≤ sec.vaddr + sec.raw_data_size
    · rw [if_pos (by
        simp only [containsR, Bool.and_eq_true, decide_eq_true_eq]
        omega)]
      rw [List.find?_cons_of_pos _ (by simp only [decide_eq_true_eq]; exact hcond)]
      have hfit : V - sec.vaddr + sec.pointer_to_raw_data < 4294967296 := by
        have := hptr sec (List.mem_cons_self ..) hcond.1
        omega
      rw [Nat.mod_eq_of_lt hfit]
      rfl
    · rw [if_neg (by
        simp only [containsR, Bool.and_eq_true, decide_eq_true_eq]
        omega)]
      rw [List.find?_cons_of_neg _ (by simp only [decide_eq_true_eq]; exact hcond)]
      exact ih (fun x hx => hsec x (List.mem_cons_of_mem _ hx))
        (fun x hx => hptr x (List.mem_cons_of_mem _ hx))

/-- The section table of `goodFile`. -/
def goodSections : List ImageSectionHeader := [⟨4096, 256, 280⟩]

/-- Witness for the amended C5 at the concrete section table of
`goodFile` and its debug directory `(vaddr 4096, size 28)`. -/
theorem find_debug_section_characterization_witness :
    findDebugSection goodSections 4096 28 =
      (goodSections.find? fun sec =>
          decide (sec.vaddr ≤ 4096 ∧ 4096 + 28 ≤ sec.vaddr + sec.raw_data_size)).map
        fun sec => 4096 - sec.vaddr + sec.pointer_to_raw_data :=
  find_debug_section_characterization goodSections 4096 28 (by decide)
    (by norm_num) (by decide) (by decide)

/-- C8: the data-directory validation fails with a debug-directory error
exactly when the table has fewer than 7 entries or entry index 6 has zero
virtual address or zero size; it fails with the malformed-debug-table
error exactly when those checks pass but the debug directory's size is
not an exact non-zero multiple of the 28-byte entry record; otherwise it
succeeds and the entry count used is `size / 28`. -/
theorem debug_table_check_characterization (dds : List ImageDataDirectory) :
    ((checkDebugDirs dds = .error (.err "No debug data directory") ∨
      checkDebugDirs dds =
        .error (.err "Debug directory not present or zero sized")) ↔
      (dds.length < 7 ∨ (dds.getD 6 ⟨0, 0⟩).vaddr = 0 ∨
        (dds.getD 6 ⟨0, 0⟩).size = 0)) ∧
    (checkDebugDirs dds =
        .error (.err "No debug entries or not mod ImageDebugDirectory") ↔
      (7 ≤ dds.length ∧ (dds.getD 6 ⟨0, 0⟩).vaddr ≠ 0 ∧
        (dds.getD 6 ⟨0, 0⟩).size ≠ 0 ∧
        ((dds.getD 6 ⟨0, 0⟩).size % 28 ≠ 0 ∨ (dds.getD 6 ⟨0, 0⟩).size / 28 = 0))) ∧
    (∀ dt n, checkDebugDirs dds = .ok (dt, n) →
      dt = dds.getD 6 ⟨0, 0⟩ ∧ n = dt.size / 28) := by
  unfold checkDebugDirs
  split_ifs with h7 hz hm
  · exact ⟨⟨fun _ => Or.inl h7, fun _ => Or.inl rfl⟩,
      ⟨fun h => absurd h (by decide), fun h => absurd h.1 (by omega)⟩,
      fun dt n h => absurd h (by simp)⟩
  · refine ⟨⟨fun _ => Or.inr hz, fun _ => Or.inr rfl⟩,
      ⟨fun h => absurd h (by decide), fun h => ?_⟩,
      fun dt n h => absurd h (by simp)⟩
    rcases hz with hv | hs
    · exact absurd hv h.2.1
    · exact absurd hs h.2.2.1
  · push_neg at hz
    refine ⟨⟨fun h => ?_, fun h => ?_⟩,
      ⟨fun _ => ⟨by omega, hz.1, hz.2, hm⟩, fun _ => rfl⟩,
      fun dt n h => absurd h (by simp)⟩
    · rcases h with h | h
      · exact absurd h (by decide)
      · exact absurd h (by decide)
    · rcases h with h | h | h
      · omega
      · exact absurd h hz.1
      · exact absurd h hz.2
  · push_neg at hz
    refine ⟨⟨fun h => ?_, fun h => ?_⟩,
      ⟨fun h => absurd h (by simp), fun h => absurd h.2.2.2 hm⟩,
      fun dt n h => ?_⟩
    · rcases h with h | h <;> exact absurd h (by simp)
    · rcases h with h | h | h
      · omega
      · exact absurd h hz.1
      · exact absurd h hz.2
    · simp only [Except.ok.injEq, Prod.mk.injEq] at h
      refine ⟨h.1.symm, ?_⟩
      rw [← h.1]
      exact h.2.symm

/-- The data-directory table of `goodFile`: seven entries, the debug
entry at index 6 with vaddr 4096 and size 28. -/
def goodDataDirs : List ImageDataDirectory :=
  [⟨0, 0⟩, ⟨0, 0⟩, ⟨0, 0⟩, ⟨0, 0⟩, ⟨0, 0⟩, ⟨0, 0⟩, ⟨4096, 28⟩]

/-- Witness for C8: on a 7-entry table with debug entry `(4096, 28)` the
validation succeeds with entry count `28 / 28 = 1`. -/
theorem debug_table_check_characterization_witness :
    (⟨4096, 28⟩ : ImageDataDirectory) = goodDataDirs.getD 6 ⟨0, 0⟩ ∧
    (1 : Nat) = (⟨4096, 28⟩ : ImageDataDirectory).size / 28 :=
  (debug_table_check_characterization goodDataDirs).2.2 ⟨4096, 28⟩ 1 (by decide)

/-! Facts about the fetcher's filesystem effects. -/

theorem createDirAll_files (fs : FsState) (d : String) :
    (createDirAll fs d).files = fs.files := by
  unfold createDirAll
  split <;> rfl

theorem mem_createDirAll_dirs {fs : FsState} {d p : String} :
    p ∈ (createDirAll fs d).dirs ↔ p = d ∨ p ∈ fs.dirs := by
  unfold createDirAll
  split
  · rename_i hmem
    constructor
    · exact Or.inr
    · rintro (rfl | hp)
      · exact hmem
      · exact hp
  · simp [List.mem_cons]

/-- The created directory `<root>/<name>/<guidage>` is a strictly shorter
string than the target `<root>/<name>/<guidage>/<name>`, so creating it
cannot make the existence check pass. -/
theorem cache_dir_ne_target (root n g o : String) :
    root ++ "/" ++ n ++ "/" ++ g ≠ root ++ "/" ++ (n ++ "/" ++ g ++ "/" ++ o) := by
  intro h
  have hlen := congrArg String.length h
  have h1 : ("/" : String).length = 1 := rfl
  simp only [String.length_append, h1] at hlen
  omega

theorem pathExists_createDirAll_of_ne {fs : FsState} {d p : String} (h : p ≠ d) :
    pathExists (createDirAll fs d) p = pathExists fs p := by
  simp only [pathExists, createDirAll_files]
  rw [decide_eq_decide, mem_createDirAll_dirs]
  tauto

/-- C6: a well-formed manifest line whose target path
`<cache>/<name>/<guidage>/<name>` already exists when the task runs is
completed as skipped with zero HTTP requests; when the target is absent,
exactly one request, for `<server>/<name>/<guidage>/<name>`, is issued. -/
theorem fetch_skips_existing_target (srv : SymSrv) (http : String → Nat)
    (fs : FsState) (line : String) (h3 : (lineFields line).length = 3) :
    (pathExists fs (srv.filepath ++ "/" ++ pdbPathOf (lineFields line)) = true →
      processLine srv http fs line =
        ⟨.skipped,
         createDirAll fs
           (srv.filepath ++ "/" ++ (lineFields line)[0]! ++ "/" ++
             (lineFields line)[1]!),
         []⟩) ∧
    (pathExists fs (srv.filepath ++ "/" ++ pdbPathOf (lineFields line)) = false →
      (processLine srv http fs line).requests =
        [srv.server ++ "/" ++ pdbPathOf (lineFields line)]) := by
  have hne : srv.filepath ++ "/" ++ pdbPathOf (lineFields line) ≠
      srv.filepath ++ "/" ++ (lineFields line)[0]! ++ "/" ++ (lineFields line)[1]! := by
    unfold pdbPathOf
    exact (cache_dir_ne_target srv.filepath (lineFields line)[0]!
      (lineFields line)[1]! (lineFields line)[0]!).symm
  constructor
  · intro hex
    unfold processLine
    rw [if_neg (by omega), if_pos (by rw [pathExists_createDirAll_of_ne hne]; exact hex)]
  · intro hab
    unfold processLine
    rw [if_neg (by omega),
      if_neg (by rw [pathExists_createDirAll_of_ne hne, hab]; simp)]
    split <;> rfl

/-- Witness for C6 at a concrete cache that already holds the target. -/
theorem fetch_skips_existing_target_witness :
    processLine ⟨"http://server", "cache"⟩ (fun _ => 404)
        ⟨[], ["cache/a/b/a"]⟩ "a,b,1" =
      ⟨.skipped, createDirAll ⟨[], ["cache/a/b/a"]⟩ "cache/a/b", []⟩ :=
  (fetch_skips_existing_target ⟨"http://server", "cache"⟩ (fun _ => 404)
    ⟨[], ["cache/a/b/a"]⟩ "a,b,1" (by decide)).1 (by decide)

/-- C10: processing a well-formed line always creates the cache
subdirectory `<cache>/<name>/<guidage>` — also when the line is then
skipped as already present or fails with a non-200 status — and a skipped
line modifies nothing else: files are untouched and the only possible new
directory is that one. -/
theorem dir_created_before_existence_check (srv : SymSrv) (http : String → Nat)
    (fs : FsState) (line : String) (h3 : (lineFields line).length = 3) :
    ((srv.filepath ++ "/" ++ (lineFields line)[0]! ++ "/" ++ (lineFields line)[1]!) ∈
      (processLine srv http fs line).fs.dirs) ∧
    (∀ k, (processLine srv http fs line).outcome = .failed k →
      (processLine srv http fs line).fs.files = fs.files) ∧
    ((processLine srv http fs line).outcome = .skipped →
      (processLine srv http fs line).fs.files = fs.files ∧
      ∀ p, p ∈ (processLine srv http fs line).fs.dirs ↔
        p = (srv.filepath ++ "/" ++ (lineFields line)[0]! ++ "/" ++
              (lineFields line)[1]!) ∨
        p ∈ fs.dirs) := by
  unfold processLine
  rw [if_neg (by omega)]
  split
  · refine ⟨mem_createDirAll_dirs.mpr (Or.inl rfl), ?_, ?_⟩
    · intro k hk
      exact absurd hk (by simp)
    · intro _
      exact ⟨createDirAll_files .., fun p => mem_createDirAll_dirs⟩
  · split
    · refine ⟨mem_createDirAll_dirs.mpr (Or.inl rfl), ?_, ?_⟩
      · intro k _
        exact createDirAll_files ..
      · intro hk
        exact absurd hk (by simp)
    · refine ⟨mem_createDirAll_dirs.mpr (Or.inl rfl), ?_, ?_⟩
      · intro k hk
        exact absurd hk (by simp)
      · intro hk
        exact absurd hk (by simp)

/-- Witness for C10: the subdirectory exists after a skipped line. -/
theorem dir_created_before_existence_check_witness :
    ("cache/a/b" : String) ∈
      (processLine ⟨"http://server", "cache"⟩ (fun _ => 404)
        ⟨[], ["cache/a/b/a"]⟩ "a,b,1").fs.dirs :=
  (dir_created_before_existence_check ⟨"http://server", "cache"⟩ (fun _ => 404)
    ⟨[], ["cache/a/b/a"]⟩ "a,b,1" (by decide)).1

/-- C7 counterexample: `download_manifest` performs no deduplication — a
manifest consisting of the same line twice issues two HTTP requests for
the single distinct line when the download does not complete (here the
server answers 404 both times). -/
theorem download_manifest_no_dedup_counterexample :
    download_manifest "SRV*cache*http://server" (fun _ => 404) ⟨[], []⟩
        ["a,b,1", "a,b,1"] =
      .ok (⟨["cache/a/b", "cache"], []⟩,
           ["http://server/a/b/a", "http://server/a/b/a"]) := by decide

theorem runManifest_cons (srv : SymSrv) (http : String → Nat) (fs : FsState)
    (line : String) (rest : List String) :
    runManifest srv http fs (line :: rest) =
      ((runManifest srv http (processLine srv http fs line).fs rest).1,
       (processLine srv http fs line).requests ++
         (runManifest srv http (processLine srv http fs line).fs rest).2) := rfl

theorem processLine_fetched (srv : SymSrv) (http : String → Nat) (fs : FsState)
    (line : String) (h3 : (lineFields line).length = 3)
    (hab : pathExists fs (srv.filepath ++ "/" ++ pdbPathOf (lineFields line)) = false)
    (hok : http (srv.server ++ "/" ++ pdbPathOf (lineFields line)) = 200) :
    processLine srv http fs line =
      ⟨.fetched,
       createFile
         (createDirAll fs
           (srv.filepath ++ "/" ++ (lineFields line)[0]! ++ "/" ++
             (lineFields line)[1]!))
         (srv.filepath ++ "/" ++ pdbPathOf (lineFields line)),
       [srv.server ++ "/" ++ pdbPathOf (lineFields line)]⟩ := by
  have hne : srv.filepath ++ "/" ++ pdbPathOf (lineFields line) ≠
      srv.filepath ++ "/" ++ (lineFields line)[0]! ++ "/" ++ (lineFields line)[1]! := by
    unfold pdbPathOf
    exact (cache_dir_ne_target srv.filepath (lineFields line)[0]!
      (lineFields line)[1]! (lineFields line)[0]!).symm
  unfold processLine
  rw [if_neg (by omega),
    if_neg (by rw [pathExists_createDirAll_of_ne hne, hab]; simp),
    if_neg (by rw [hok]; simp)]

theorem processLine_skips (srv : SymSrv) (http : String → Nat) (fs : FsState)
    (line : String) (h3 : (lineFields line).length = 3)
    (hex : pathExists (createDirAll fs
        (srv.filepath ++ "/" ++ (lineFields line)[0]! ++ "/" ++ (lineFields line)[1]!))
      (srv.filepath ++ "/" ++ pdbPathOf (lineFields line)) = true) :
    processLine srv http fs line =
      ⟨.skipped,
       createDirAll fs
         (srv.filepath ++ "/" ++ (lineFields line)[0]! ++ "/" ++
           (lineFields line)[1]!),
       []⟩ := by
  unfold processLine
  rw [if_neg (by omega), if_pos hex]

/-- C7 amended: the fetcher maps every manifest line, duplicates included,
to its own task (no deduplication step exists); a duplicate whose target
file already exists when its task runs is skipped by the existence check,
so a line duplicated twice issues exactly one request when the first
download succeeds with status 200. -/
theorem duplicate_line_single_request (srv : SymSrv) (http : String → Nat)
    (fs : FsState) (line : String) (h3 : (lineFields line).length = 3)
    (hab : pathExists fs (srv.filepath ++ "/" ++ pdbPathOf (lineFields line)) = false)
    (hok : http (srv.server ++ "/" ++ pdbPathOf (lineFields line)) = 200) :
    (runManifest srv http fs [line, line]).2 =
      [srv.server ++ "/" ++ pdbPathOf (lineFields line)] := by
  have h1 := processLine_fetched srv http fs line h3 hab hok
  rw [runManifest_cons, h1]
  have hex : pathExists
      (createDirAll
        (createFile
          (createDirAll fs
            (srv.filepath ++ "/" ++ (lineFields line)[0]! ++ "/" ++
              (lineFields line)[1]!))
          (srv.filepath ++ "/" ++ pdbPathOf (lineFields line)))
        (srv.filepath ++ "/" ++ (lineFields line)[0]! ++ "/" ++ (lineFields line)[1]!))
      (srv.filepath ++ "/" ++ pdbPathOf (lineFields line)) = true := by
    simp only [pathExists, decide_eq_true_eq]
    right
    rw [createDirAll_files]
    exact List.mem_cons_self ..
  have h2 := processLine_skips srv http
    (createFile
      (createDirAll fs
        (srv.filepath ++ "/" ++ (lineFields line)[0]! ++ "/" ++ (lineFields line)[1]!))
      (srv.filepath ++ "/" ++ pdbPathOf (lineFields line)))
    line h3 hex
  rw [runManifest_cons, h2]
  rfl

/-- Witness for the amended C7: the duplicated line `a,b,1` against an
empty cache and a 200-server issues exactly one request. -/
theorem duplicate_line_single_request_witness :
    (runManifest ⟨"http://server", "cache"⟩ (fun _ => 200) ⟨[], []⟩
        ["a,b,1", "a,b,1"]).2 = ["http://server/a/b/a"] :=
  duplicate_line_single_request ⟨"http://server", "cache"⟩ (fun _ => 200)
    ⟨[], []⟩ "a,b,1" (by decide) (by decide) rfl

end Pdblister
